import Mathlib

/-!
Shallow embedding of the real-time RL walking controller
(`scripts/rl_walk.py` of mini_BDX_runtime) and proofs about it.

Numeric values are modelled as rationals (`ℚ`); the claims checked here are
structural (vector lengths, order of concatenation, which value is stored,
queue semantics, control flow on exit paths), none of which depend on
floating-point rounding.
-/

namespace RLW

/-- A flat numeric vector (numpy array / python list of floats). -/
abbrev Vec := List ℚ

/-- A quaternion in scipy order `[x, y, z, w]`, as a 4-element list. -/
abbrev Quat := List ℚ

/-! ### Spec-modelled collaborators

The helpers `quat_rotate_inverse`, `mujoco_to_isaac` and `isaac_to_mujoco`
live in `mini_bdx_runtime/rl_utils.py`, which is part of the repository but
not among the given sources; they are modelled from the spec here. -/

/-- Modelled from the spec: `rl_utils.quat_rotate_inverse` is not under the
given sources.  Spec §4.4: the projected gravity vector is obtained "by
rotating the world-down vector `(0,0,-1)` into body frame using the inverse
of the current orientation quaternion".  This is the standard inverse
rotation formula for a quaternion `[x, y, z, w]` acting on a 3-vector:
`v' = v (2 w² - 1) - 2 w (q_vec × v) + 2 q_vec (q_vec ⬝ v)`. -/
def quat_rotate_inverse (q v : Vec) : Vec :=
  let qx := q.getD 0 0
  let qy := q.getD 1 0
  let qz := q.getD 2 0
  let qw := q.getD 3 0
  let vx := v.getD 0 0
  let vy := v.getD 1 0
  let vz := v.getD 2 0
  let s := 2 * qw * qw - 1
  let cx := qy * vz - qz * vy
  let cy := qz * vx - qx * vz
  let cz := qx * vy - qy * vx
  let d := qx * vx + qy * vy + qz * vz
  [vx * s - cx * (2 * qw) + qx * (2 * d),
   vy * s - cy * (2 * qw) + qy * (2 * d),
   vz * s - cz * (2 * qw) + qz * (2 * d)]

/-- Modelled from the spec: `rl_utils.mujoco_to_isaac` is not under the given
sources.  Spec §3/§4.1: the Coordinate Mapper is "a permutation + optional
sign flip, no value change" on the fixed joint-count domain (15 entries);
the concrete table is not given, so the permutation and the sign vector are
parameters. -/
def mujoco_to_isaac (perm : Fin 15 → Fin 15) (sign : Fin 15 → ℚ) (v : Vec) : Vec :=
  (List.finRange 15).map (fun i => sign i * v.getD (perm i).val 0)

/-- Modelled from the spec: `rl_utils.isaac_to_mujoco` is not under the given
sources; like `mujoco_to_isaac` it is a fixed permutation with optional
sign flips on 15 entries, in the other direction. -/
def isaac_to_mujoco (perm : Fin 15 → Fin 15) (sign : Fin 15 → ℚ) (v : Vec) : Vec :=
  (List.finRange 15).map (fun i => sign i * v.getD (perm i).val 0)

/-! ### The single-slot IMU cell (`Queue(maxsize=1)`)

`rl_walk.py` line 62 creates `self.imu_queue = Queue(maxsize=1)`.  The
sampler publishes with `self.imu_queue.put(q)` (line 99): a python
`queue.Queue.put` with the default `block=True` waits while the queue is
full, and never replaces the element already there.  The scheduler reads
with `self.imu_queue.get(False)` (line 104), which returns immediately:
either the stored element (removing it) or an `Empty` exception. -/

/-- Outcome of the sampler's `put` on the one-slot queue. -/
inductive PutOutcome
  | stored
  | wouldBlock
deriving DecidableEq, Repr

/-- Semantics of `Queue(maxsize=1).put(v)` (blocking put, `rl_walk.py` line 99):
if the slot is empty the value is stored; if the slot still holds an unread
value the caller blocks — modelled as outcome `wouldBlock` — and the slot is
left unchanged (the unread value is NOT overwritten). -/
def slotPut (slot : Option Quat) (v : Quat) : Option Quat × PutOutcome :=
  match slot with
  | none => (some v, PutOutcome.stored)
  | some w => (some w, PutOutcome.wouldBlock)

/-- Semantics of `Queue(maxsize=1).get(False)` (non-blocking get,
`rl_walk.py` line 104): returns the current content immediately — the stored
element (emptying the slot) or nothing (python raises `Empty`, caught by the
caller).  There is no blocking outcome in the type: this read cannot block. -/
def slotGet (slot : Option Quat) : Option Quat × Option Quat :=
  (slot, none)

/-! ### Scheduler-side IMU state and `get_imu_data` -/

/-- The scheduler-visible IMU state: the one-slot queue content and the
cached `self.last_imu_data`.  `lastImuData` is an `Option` because
`get_obs` (line 113) checks the returned value against python `None`;
`none` here models python `None`. -/
structure SchedulerState where
  imuSlot : Option Quat
  lastImuData : Option Quat
deriving DecidableEq, Repr

/-- State right after `RLWalk.__init__` (lines 61-62): no sample has ever
been published (`imu_queue` empty) and `self.last_imu_data = [0, 0, 0, 0]`
(the python list, not `None`). -/
def initState : SchedulerState :=
  SchedulerState.mk none (some [0, 0, 0, 0])

/-- Transcription of `RLWalk.get_imu_data` (lines 102-108): try a
non-blocking `get` on the queue; on success cache the value in
`last_imu_data`, on `Empty` keep the cache; return `last_imu_data`. -/
def get_imu_data (st : SchedulerState) : Option Quat × SchedulerState :=
  match st.imuSlot with
  | some q => (some q, SchedulerState.mk none (some q))
  | none => (st.lastImuData, st)

/-! ### Observation assembly (`get_obs`) -/

/-- Fixed scaling constant `self.dof_pos_scale = 1.0` (line 70). -/
def dof_pos_scale : ℚ := 1

/-- Fixed scaling constant `self.dof_vel_scale = 0.05` (line 71). -/
def dof_vel_scale : ℚ := 1 / 20

/-- The configuration fixed at construction that `get_obs` and the run loop
read: the mujoco-order rest pose (13 physical joints + 2 placeholder zeros),
the isaac-order rest pose, the action scale, the control frequency, and the
Coordinate Mapper tables (spec-modelled parameters, see `mujoco_to_isaac`). -/
structure Config where
  control_freq : ℚ
  action_scale : ℚ
  mujoco_init_pos : Vec
  isaac_init_pos : Vec
  permMI : Fin 15 → Fin 15
  signMI : Fin 15 → ℚ
  permIM : Fin 15 → Fin 15
  signIM : Fin 15 → ℚ

/-- Transcription of `RLWalk.get_obs` (lines 110-144) with the IMU enabled
(`debug_no_imu = False`, as in `__main__`).  Joint positions/velocities come
from the actuator interface (external collaborator) and are passed as
arguments; `prev_action` is the stored previous action.  Returns `none`
exactly when the read orientation is python `None` (the "IMU ERROR" branch,
lines 113-115), otherwise the concatenated observation. -/
def get_obs (cfg : Config) (commands dof_pos dof_vel prev_action : Vec)
    (st : SchedulerState) : Option Vec × SchedulerState :=
  match get_imu_data st with
  | (none, st') => (none, st')
  | (some orientation_quat, st') =>
    let dof_pos_scaled :=
      List.zipWith (fun a b => (a - b) * dof_pos_scale) dof_pos
        (cfg.mujoco_init_pos.take 13)
    let dof_vel_scaled := dof_vel.map (fun a => a * dof_vel_scale)
    let dof_pos_padded := dof_pos_scaled ++ [0, 0]
    let dof_vel_padded := dof_vel_scaled ++ [0, 0]
    let dof_pos_isaac := mujoco_to_isaac cfg.permMI cfg.signMI dof_pos_padded
    let dof_vel_isaac := mujoco_to_isaac cfg.permMI cfg.signMI dof_vel_padded
    let projected_gravity := quat_rotate_inverse orientation_quat [0, 0, -1]
    (some (projected_gravity ++ commands ++ dof_pos_isaac ++ dof_vel_isaac
      ++ prev_action), st')

/-- Initial previous-action buffer `self.prev_action = np.zeros(15)`
(line 74). -/
def init_prev_action : Vec := List.replicate 15 0

/-! ### RMA observation history (lines 49-52 and 165-172) -/

/-- History capacity `self.obs_history_size = 15` (line 51). -/
def obs_history_size : ℕ := 15

/-- Observation length `self.num_obs = 51` (line 48). -/
def num_obs : ℕ := 51

/-- Initial history `np.zeros((15, 51)).tolist()` (line 52): 15 zero rows of
51 entries each. -/
def initHist : List Vec := List.replicate obs_history_size (List.replicate num_obs 0)

/-- One history update of the run loop in RMA mode (lines 166-167):
`self.obs_history.append(obs)` then
`self.obs_history = self.obs_history[-self.obs_history_size:]`.
A python slice `l[-n:]` keeps the last `min(len(l), n)` elements, i.e. drops
`len(l) - n` from the front (0 when shorter), which is exactly `List.drop`
with truncated subtraction. -/
def histPush (hist : List Vec) (obs : Vec) : List Vec :=
  (hist ++ [obs]).drop ((hist ++ [obs]).length - obs_history_size)

/-- The history after the first `k` observations of a session: fold
`histPush` over them starting from the zero-filled initial window. -/
def histAfter (obsSeq : List Vec) : List Vec :=
  obsSeq.foldl histPush initHist

/-- One RMA-mode inference step (lines 165-172): push the new observation,
flatten the window (`np.array(h).flatten()` is concatenation of the rows in
order), call the adaptation module for the latent, and call the primary
policy on `np.concatenate([obs, latent])`.  The two inference engines are
external black boxes (spec §1) and are passed as functions.  Returns the new
history and the raw action. -/
def rma_iter (adapt policy : Vec → Vec) (obs : Vec) (hist : List Vec) :
    List Vec × Vec :=
  let hist2 := histPush hist obs
  let latent := adapt hist2.flatten
  (hist2, policy (obs ++ latent))

/-! ### Direct-mode iteration and the previous-action feedback
(lines 173-186) -/

/-- Modelled from the spec: `rl_utils.LowPassActionFilter` is not under the
given sources.  Spec §4.2 and glossary: a per-joint single-pole low-pass —
"each output sample is a weighted blend of the previous filtered output and
the new raw sample"; `push` updates the state, `get_filtered_action` reads
it.  The blend weight `alpha` is derived from the two frequencies at
construction; it is a parameter here.  Before the first push the state is
empty and the first push adopts the raw sample. -/
def lowpass_push (alpha : ℚ) (fs : Option Vec) (raw : Vec) : Option Vec :=
  match fs with
  | none => some raw
  | some prev => some (List.zipWith (fun p r => alpha * p + (1 - alpha) * r) prev raw)

/-- Read of the current filtered estimate; `dflt` is only used in the
(never exercised) read-before-first-push case. -/
def lowpass_get (fs : Option Vec) (dflt : Vec) : Vec :=
  fs.getD dflt

/-- Scheduler state threaded through direct-mode iterations: the stored
previous action and the action-filter state. -/
structure DirectState where
  prev_action : Vec
  filt : Option Vec

/-- One direct-mode body of the Running loop after observation assembly
(lines 174-186): `action = policy.infer(obs)`;
`self.prev_action = action.copy()` (line 176, BEFORE scaling/offset/filter);
`action = action * self.action_scale + self.isaac_init_pos` (line 178);
push through the filter and read back (lines 180-181); convert to mujoco
order (line 183).  Returns the new state and the actuated command. -/
def direct_iter (policy : Vec → Vec) (cfg : Config) (alpha : ℚ)
    (st : DirectState) (obs : Vec) : DirectState × Vec :=
  let action := policy obs
  let prev := action
  let scaled := List.zipWith (fun a b => a * cfg.action_scale + b) action cfg.isaac_init_pos
  let filt2 := lowpass_push alpha st.filt scaled
  let filtered := lowpass_get filt2 scaled
  (DirectState.mk prev filt2, isaac_to_mujoco cfg.permIM cfg.signIM filtered)

/-- The direct-mode Running loop over a sequence of assembled observations,
threading `DirectState`. -/
def directLoop (policy : Vec → Vec) (cfg : Config) (alpha : ℚ)
    (st : DirectState) (obsSeq : List Vec) : DirectState :=
  obsSeq.foldl (fun s o => (direct_iter policy cfg alpha s o).1) st

/-! ### Exit paths of `RLWalk.run` (lines 152-215)

The `while True` body is wrapped in `try ... except KeyboardInterrupt: pass`
and `pickle.dump(robot_computed_obs, ...)` runs after that handler.  The
loop iterations are modelled as a list of events: a `KeyboardInterrupt`
observed at the top of an iteration, a `get_obs` returning `None`, or an
assembled observation together with whether the inference call succeeds.
`robot_computed_obs.append(obs)` (line 163) happens before inference. -/

/-- What one Running iteration amounts to for the exit analysis. -/
inductive IterEvent
  | interrupt
  | noOrientation
  | iter (obs : Vec) (inferOk : Bool)
deriving DecidableEq, Repr

/-- How the Running loop ended. -/
inductive ExitKind
  | interrupted
  | fatalNoOrientation
  | inferException
  | running
deriving DecidableEq, Repr

/-- Result of `RLWalk.run`: the recorded observation trace, whether
`pickle.dump` executed before `run` returned, and the exit kind. -/
structure RunResult where
  trace : List Vec
  dumped : Bool
  exit : ExitKind
deriving DecidableEq, Repr

/-- Exit behaviour of `RLWalk.run` (lines 155-214) over a sequence of
iteration events, accumulating `robot_computed_obs` in `tr`:
a `KeyboardInterrupt` is caught by the handler (line 211) and the dump
(line 214) runs; a `None` observation breaks out of the loop (line 162) and
the dump runs; a successful iteration appends its observation and
continues; a failing inference call raises an exception that is NOT caught
by `except KeyboardInterrupt`, so it propagates out of `run` and the dump
never executes — but the observation was already appended (line 163). -/
def runEvents : List IterEvent → List Vec → RunResult
  | [], tr => RunResult.mk tr false ExitKind.running
  | IterEvent.interrupt :: _, tr => RunResult.mk tr true ExitKind.interrupted
  | IterEvent.noOrientation :: _, tr => RunResult.mk tr true ExitKind.fatalNoOrientation
  | IterEvent.iter obs ok :: rest, tr =>
    if ok then runEvents rest (tr ++ [obs])
    else RunResult.mk (tr ++ [obs]) false ExitKind.inferException

/-! ### The IMU worker loop (`imu_worker`, lines 84-100) -/

/-- Outcome of one sensor read attempt: the `try` block of lines 86-91
either produces a quaternion or raises (the adafruit driver "fails
intermittently with a transient error", spec §6). -/
inductive SensorRead
  | ok (q : Quat)
  | err
deriving DecidableEq, Repr

/-- Observable trace of the worker loop: the values published to the queue
in order, how many times it slept, how many errors it printed, and whether
the loop ever exited (the `while True` of line 85 has no exit path, so no
step ever sets this). -/
structure WorkerTrace where
  published : List Quat
  sleeps : ℕ
  logs : ℕ
  exited : Bool
deriving DecidableEq, Repr

/-- One pass of the `imu_worker` body (lines 85-100).  On a read failure the
`except` branch prints the error and `continue`s: no publish, no sleep, the
loop keeps going.  On success the quaternion is processed (axis permutation,
pitch bias, reconversion — a pure transformation passed as `process`, since
its trigonometric content is irrelevant to the control flow), published, and
the worker sleeps `1 / (control_freq * 2)`. -/
def imu_worker_step (process : Quat → Quat) (acc : WorkerTrace) (r : SensorRead) :
    WorkerTrace :=
  match r with
  | SensorRead.err =>
    WorkerTrace.mk acc.published acc.sleeps (acc.logs + 1) acc.exited
  | SensorRead.ok q =>
    WorkerTrace.mk (acc.published ++ [process q]) (acc.sleeps + 1) acc.logs acc.exited

/-- The worker loop run over a finite prefix of sensor-read outcomes. -/
def imu_worker_run (process : Quat → Quat) (reads : List SensorRead) : WorkerTrace :=
  reads.foldl (imu_worker_step process) (WorkerTrace.mk [] 0 0 false)

/-! ### Loop pacing (line 210) -/

/-- The sleep issued at the end of a Running iteration (line 210):
`time.sleep(max(1 / self.control_freq - took, 0))`.  It depends only on this
iteration's elapsed time `took` — no state is carried between iterations. -/
def iterSleep (control_freq took : ℚ) : ℚ :=
  max (1 / control_freq - took) 0

/-- A concrete configuration used by the concrete witnesses: control
frequency 60, action scale 1/4, zero rest poses, identity mapper tables. -/
def cfg0 : Config :=
  Config.mk 60 (1 / 4) (List.replicate 15 0) (List.replicate 15 0)
    id (fun _ => 1) id (fun _ => 1)

/-! ### Helper lemmas shared by the claims -/

/-- The modelled Coordinate Mapper always emits the 15 policy-order
entries. -/
theorem length_mujoco_to_isaac (perm : Fin 15 → Fin 15) (sign : Fin 15 → ℚ)
    (v : Vec) : (mujoco_to_isaac perm sign v).length = 15 := by
  simp [mujoco_to_isaac]

/-- The projected-gravity computation emits exactly 3 entries. -/
theorem length_quat_rotate_inverse (q v : Vec) :
    (quat_rotate_inverse q v).length = 3 := rfl

/-- Whenever `get_obs` returns an observation, it is exactly the
concatenation of projected gravity, commands, policy-order scaled
positions, policy-order scaled velocities, and the previous action — in
that order — built from the orientation that `get_imu_data` returned. -/
theorem get_obs_some_decomp (cfg : Config)
    (commands dof_pos dof_vel prev_action : Vec) (st : SchedulerState)
    (v : Vec)
    (hobs : (get_obs cfg commands dof_pos dof_vel prev_action st).1 = some v) :
    ∃ q, (get_imu_data st).1 = some q ∧
      v = quat_rotate_inverse q [0, 0, -1] ++ commands ++
        mujoco_to_isaac cfg.permMI cfg.signMI
          (List.zipWith (fun a b => (a - b) * dof_pos_scale) dof_pos
            (cfg.mujoco_init_pos.take 13) ++ [0, 0]) ++
        mujoco_to_isaac cfg.permMI cfg.signMI
          (dof_vel.map (fun a => a * dof_vel_scale) ++ [0, 0]) ++
        prev_action := by
  unfold get_obs at hobs
  rcases hgi : get_imu_data st with ⟨oq, st2⟩
  rw [hgi] at hobs
  cases oq with
  | none => simp at hobs
  | some q =>
    simp only [Option.some.injEq] at hobs
    exact ⟨q, rfl, by rw [← hobs]⟩

/-- Whenever `get_obs` returns an observation and the command vector has 3
entries and the previous action 15, the observation has exactly 51
entries. -/
theorem get_obs_some_length (cfg : Config)
    (commands dof_pos dof_vel prev_action : Vec) (st : SchedulerState)
    (v : Vec) (hc : commands.length = 3) (hprev : prev_action.length = 15)
    (hobs : (get_obs cfg commands dof_pos dof_vel prev_action st).1 = some v) :
    v.length = 51 := by
  obtain ⟨q, -, hv⟩ :=
    get_obs_some_decomp cfg commands dof_pos dof_vel prev_action st v hobs
  subst hv
  simp [length_quat_rotate_inverse, length_mujoco_to_isaac, hc, hprev]

/-- A full history window advances by dropping its oldest row and appending
the new observation. -/
theorem histPush_of_full (h : List Vec) (o : Vec)
    (hh : h.length = obs_history_size) :
    histPush h o = (h ++ [o]).drop 1 := by
  simp [histPush, hh]

/-- Folding `histPush` from any full window keeps dropping the oldest rows:
the window after consuming `obsSeq` is the last 15 rows of the original
window followed by `obsSeq`. -/
theorem foldl_histPush_eq (obsSeq : List Vec) :
    ∀ h : List Vec, h.length = obs_history_size →
      obsSeq.foldl histPush h = (h ++ obsSeq).drop obsSeq.length := by
  induction obsSeq with
  | nil => intro h hh; simp
  | cons o os ih =>
    intro h hh
    cases h with
    | nil => simp [obs_history_size] at hh
    | cons a t =>
      have ht : t.length = 14 := by
        simpa [obs_history_size] using hh
      have h1 : histPush (a :: t) o = t ++ [o] := by
        rw [histPush_of_full (a :: t) o hh]
        rfl
      have h2 : (t ++ [o]).length = obs_history_size := by
        simp [ht, obs_history_size]
      show os.foldl histPush (histPush (a :: t) o) =
        ((a :: t) ++ o :: os).drop (o :: os).length
      rw [h1, ih (t ++ [o]) h2]
      simp [List.drop_succ_cons]

/-- The session history after the first `k` observations is the suffix of
the zero-filled initial window followed by those observations. -/
theorem histAfter_eq (obsSeq : List Vec) :
    histAfter obsSeq = (initHist ++ obsSeq).drop obsSeq.length :=
  foldl_histPush_eq obsSeq initHist (by simp [initHist])

/-- Iterations whose inference succeeds only append their observation to the
recorded trace; the loop continues with the remaining events. -/
theorem runEvents_ok_iters (obsSeq : List Vec) :
    ∀ (evs : List IterEvent) (tr : List Vec),
      runEvents (obsSeq.map (fun o => IterEvent.iter o true) ++ evs) tr =
        runEvents evs (tr ++ obsSeq) := by
  induction obsSeq with
  | nil => intro evs tr; simp
  | cons o os ih =>
    intro evs tr
    simp only [List.map_cons, List.cons_append]
    show runEvents (os.map (fun o => IterEvent.iter o true) ++ evs) (tr ++ [o]) = _
    rw [ih evs (tr ++ [o])]
    simp

/-- Dropping the tail of an observation decomposed into 3+3+15+15 leading
entries and a trailing block returns the trailing block. -/
theorem drop36_of_parts (g c p w prev : Vec) (h3 : g.length = 3)
    (hc : c.length = 3) (hp : p.length = 15) (hw : w.length = 15) :
    (g ++ c ++ p ++ w ++ prev).drop 36 = prev := by
  have hlen : (g ++ c ++ p ++ w).length = 36 := by
    simp [h3, hc, hp, hw]
  exact List.drop_left' hlen

/-! ### The claims -/

/-- C1: the spec claims the sampler's publish into the single-slot cell
"overwrites any unread previous value" and "never blocks".  Counterexample:
the code's cell is `Queue(maxsize=1)` with a blocking `put` — publishing
`[1,0,0,0]` while the cell still holds the unread `[0,0,0,1]` leaves the old
value in place (no overwrite) and blocks the sampler. -/
theorem imu_publish_blocks_counterexample :
    slotPut (some [0, 0, 0, 1]) [1, 0, 0, 0] =
      (some [0, 0, 0, 1], PutOutcome.wouldBlock) ∧
    ([0, 0, 0, 1] : Quat) ≠ [1, 0, 0, 0] := by
  exact ⟨rfl, by decide⟩

/-- C1 (amended): the scheduler's non-blocking read never blocks — it
returns the current cell content (or nothing) immediately — and after any
`get_imu_data` the slot is empty, so the cell holds at most one value; a
publish into the empty cell stores the value, but a publish while the cell
still holds an unread value blocks the sampler and does not overwrite the
unread value. -/
theorem imu_cell_semantics :
    (∀ v : Quat, slotPut none v = (some v, PutOutcome.stored)) ∧
    (∀ w v : Quat, slotPut (some w) v = (some w, PutOutcome.wouldBlock)) ∧
    (∀ slot : Option Quat, slotGet slot = (slot, none)) ∧
    (∀ st : SchedulerState, (get_imu_data st).2.imuSlot = none) := by
  refine ⟨fun v => rfl, fun w v => rfl, fun slot => rfl, fun st => ?_⟩
  cases h : st.imuSlot with
  | none => simp [get_imu_data, h]
  | some q => simp [get_imu_data, h]

/-- C7: on every transient sensor read failure the worker loop logs the
error and retries immediately — no publish, no sleep — and no sequence of
failures terminates the loop or reaches the scheduler: a run over any
all-failure read sequence publishes nothing, sleeps zero times, logs once
per failure, and has not exited. -/
theorem imu_worker_retries_on_failure (process : Quat → Quat)
    (reads : List SensorRead) (h : ∀ r ∈ reads, r = SensorRead.err) :
    imu_worker_run process reads = WorkerTrace.mk [] 0 reads.length false := by
  suffices hgen : ∀ (rs : List SensorRead) (acc : WorkerTrace),
      (∀ r ∈ rs, r = SensorRead.err) →
      rs.foldl (imu_worker_step process) acc =
        WorkerTrace.mk acc.published acc.sleeps (acc.logs + rs.length) acc.exited by
    simpa [imu_worker_run] using hgen reads (WorkerTrace.mk [] 0 0 false) h
  intro rs
  induction rs with
  | nil => intro acc _; simp
  | cons r rs ih =>
    intro acc hall
    have hr : r = SensorRead.err := hall r (by simp)
    subst hr
    simp only [List.foldl_cons]
    rw [ih _ (fun x hx => hall x (by simp [hx]))]
    simp [imu_worker_step]
    omega

/-- Witness for C7 at the concrete all-failure read sequence of length
two. -/
theorem imu_worker_retries_on_failure_witness :
    imu_worker_run id [SensorRead.err, SensorRead.err] =
      WorkerTrace.mk [] 0 2 false :=
  imu_worker_retries_on_failure id [SensorRead.err, SensorRead.err] (by decide)

/-- C8: the end-of-iteration sleep is exactly
`max(1/controlFrequency - elapsed, 0)`; it is never negative, and when the
iteration's work meets or exceeds the target period the sleep is zero.
`iterSleep` takes only this iteration's elapsed time — no state is carried
between iterations, so no catch-up compensation exists, and it is a total
function, so no error is raised. -/
theorem iterSleep_correct (control_freq took : ℚ) :
    0 ≤ iterSleep control_freq took ∧
    iterSleep control_freq took = max (1 / control_freq - took) 0 ∧
    (1 / control_freq ≤ took → iterSleep control_freq took = 0) := by
  refine ⟨le_max_right _ _, rfl, fun h => ?_⟩
  exact max_eq_right (sub_nonpos.mpr h)

/-- Witness for C8 at control frequency 60 and an overrunning iteration of
1 second. -/
theorem iterSleep_correct_witness :
    0 ≤ iterSleep 60 1 ∧ iterSleep 60 1 = 0 :=
  ⟨(iterSleep_correct 60 1).1, (iterSleep_correct 60 1).2.2 (by norm_num)⟩

/-- C10: in RMA mode the observation history holds exactly 15 rows after
construction and after every iteration: the fold of append-then-truncate
steps keeps the length at 15 starting from the zero-filled initial window,
and a single step preserves the length-15 invariant. -/
theorem obs_history_length_invariant :
    (∀ obsSeq : List Vec, (histAfter obsSeq).length = obs_history_size) ∧
    (∀ (h : List Vec) (o : Vec), h.length = obs_history_size →
      (histPush h o).length = obs_history_size) := by
  constructor
  · intro obsSeq
    rw [histAfter_eq]
    simp [initHist]
  · intro h o hh
    simp [histPush, hh, obs_history_size]

/-- Witness for C10: the invariant at the empty session and at one concrete
push on the initial window. -/
theorem obs_history_length_invariant_witness :
    (histAfter []).length = obs_history_size ∧
    (histPush initHist (List.replicate num_obs 1)).length = obs_history_size :=
  ⟨obs_history_length_invariant.1 [],
   obs_history_length_invariant.2 initHist (List.replicate num_obs 1) rfl⟩

/-- C5: in RMA mode the history starts zero-filled with capacity 15; after
the first `k` observations the window is `15 - k` zero rows followed by the
`k` real observations in chronological order (for `k ≤ 15`), and from the
15th observation onward it is exactly the last 15 real observations, oldest
evicted first; one RMA step pushes the new observation, feeds the flattened
window to the adaptation module, and calls the primary policy on the
concatenation of the current observation and the returned latent. -/
theorem rma_history_window (adapt policy : Vec → Vec) (obsSeq : List Vec)
    (o : Vec) :
    (obsSeq.length ≤ obs_history_size →
      histAfter obsSeq =
        List.replicate (obs_history_size - obsSeq.length)
          (List.replicate num_obs 0) ++ obsSeq) ∧
    (obs_history_size ≤ obsSeq.length →
      histAfter obsSeq = obsSeq.drop (obsSeq.length - obs_history_size)) ∧
    rma_iter adapt policy o (histAfter obsSeq) =
      (histAfter (obsSeq ++ [o]),
       policy (o ++ adapt (histAfter (obsSeq ++ [o])).flatten)) := by
  refine ⟨fun hk => ?_, fun hk => ?_, ?_⟩
  · rw [histAfter_eq, List.drop_append_eq_append_drop]
    have hinit : initHist.length = obs_history_size := by simp [initHist]
    rw [hinit, Nat.sub_eq_zero_of_le hk, List.drop_zero, initHist,
      List.drop_replicate]
  · rw [histAfter_eq, List.drop_append_eq_append_drop]
    have hinit : initHist.length = obs_history_size := by simp [initHist]
    rw [hinit, initHist, List.drop_replicate,
      Nat.sub_eq_zero_of_le hk, List.replicate_zero, List.nil_append]
  · simp [rma_iter, histAfter, List.foldl_append]

/-- Witness for C5 at a concrete session: after two real observations the
window is 13 zero rows then the two observations, and after 20 observations
it is the last 15 of them. -/
theorem rma_history_window_witness :
    (histAfter [List.replicate num_obs 1, List.replicate num_obs 2] =
      List.replicate (obs_history_size - 2) (List.replicate num_obs 0) ++
        [List.replicate num_obs 1, List.replicate num_obs 2]) ∧
    (histAfter (List.replicate 20 (List.replicate num_obs 3)) =
      (List.replicate 20 (List.replicate num_obs 3)).drop
        ((List.replicate 20 (List.replicate num_obs 3)).length -
          obs_history_size)) :=
  ⟨(rma_history_window id id
      [List.replicate num_obs 1, List.replicate num_obs 2] []).1 (by decide),
   (rma_history_window id id
      (List.replicate 20 (List.replicate num_obs 3)) []).2.1 (by decide)⟩

/-- C6: for every Running iteration the value stored as the previous action
for the next iteration is the raw policy output of that iteration — taken
before the action-scale multiplication, the rest-pose offset addition, and
the low-pass filtering that produce the actuated command. -/
theorem prev_action_is_raw_policy_output (policy : Vec → Vec) (cfg : Config)
    (alpha : ℚ) (st : DirectState) (obsSeq : List Vec) (obs : Vec) :
    (directLoop policy cfg alpha st (obsSeq ++ [obs])).prev_action =
      policy obs := by
  simp [directLoop, List.foldl_append, direct_iter]

/-- C2: the spec claims `get_obs` signals missing orientation when no
sample has ever been published.  Counterexample: in the freshly constructed
state nothing has been published (the slot is empty), yet `get_obs` returns
an observation (built from the initial `[0, 0, 0, 0]` cache), not the
missing-orientation signal. -/
theorem never_published_obs_counterexample :
    initState.imuSlot = none ∧
    ((get_obs cfg0 [0, 0, 0] (List.replicate 13 0) (List.replicate 13 0)
      init_prev_action initState).1).isSome = true :=
  ⟨rfl, rfl⟩

/-- C2 (amended): if no orientation sample has ever been published,
`get_imu_data` returns the initial zero quaternion `[0, 0, 0, 0]` — not
python `None` — and `get_obs` returns a full 51-entry observation computed
from it instead of signalling missing orientation; `get_obs` signals the
missing-orientation condition only when the latest stored value is `None`
(which the initial state rules out), and the Running loop treats that
signal as fatal and exits with the trace dumped. -/
theorem never_published_behavior (cfg : Config)
    (commands dof_pos dof_vel : Vec) (hc : commands.length = 3) :
    (get_imu_data initState).1 = some [0, 0, 0, 0] ∧
    (∃ v, (get_obs cfg commands dof_pos dof_vel init_prev_action
        initState).1 = some v ∧ v.length = 51) ∧
    (∀ st : SchedulerState, (get_imu_data st).1 = none →
      (get_obs cfg commands dof_pos dof_vel init_prev_action st).1 = none) ∧
    (∀ (rest : List IterEvent) (tr : List Vec),
      runEvents (IterEvent.noOrientation :: rest) tr =
        RunResult.mk tr true ExitKind.fatalNoOrientation) := by
  refine ⟨rfl, ?_, ?_, fun rest tr => rfl⟩
  · refine ⟨_, rfl, ?_⟩
    exact get_obs_some_length cfg commands dof_pos dof_vel init_prev_action
      initState _ hc (by simp [init_prev_action]) rfl
  · intro st hnone
    unfold get_obs
    rcases hgi : get_imu_data st with ⟨oq, st2⟩
    rw [hgi] at hnone
    cases oq with
    | none => rfl
    | some q => exact absurd hnone (by simp)

/-- Witness for C2 (amended) at a concrete configuration and telemetry. -/
theorem never_published_behavior_witness :
    (get_imu_data initState).1 = some [0, 0, 0, 0] ∧
    (∃ v, (get_obs cfg0 [0, 0, 0] (List.replicate 13 0)
      (List.replicate 13 0) init_prev_action initState).1 = some v ∧
      v.length = 51) :=
  ⟨(never_published_behavior cfg0 [0, 0, 0] (List.replicate 13 0)
      (List.replicate 13 0) (by decide)).1,
   (never_published_behavior cfg0 [0, 0, 0] (List.replicate 13 0)
      (List.replicate 13 0) (by decide)).2.1⟩

/-- C3: the spec claims the observation trace is written on every exit from
the Running loop, including inference-engine failure.  Counterexample: an
iteration whose inference call raises exits the loop with the trace NOT
dumped — the exception is not `KeyboardInterrupt`, so it propagates past
the handler and `pickle.dump` never runs. -/
theorem dump_skipped_on_infer_exception :
    (runEvents [IterEvent.iter (List.replicate 51 0) false] []).exit =
      ExitKind.inferException ∧
    (runEvents [IterEvent.iter (List.replicate 51 0) false] []).dumped =
      false :=
  ⟨rfl, rfl⟩

/-- C3 (amended): on user-requested termination and on the
missing-orientation fatal stop, the complete ordered sequence of the
session's recorded observations is written before `run` returns; but when
the inference engine raises, the exception propagates out of `run` and the
trace (which already includes that iteration's observation) is not
written. -/
theorem dump_on_exit_paths (obsSeq : List Vec) (rest : List IterEvent) :
    (runEvents (obsSeq.map (fun o => IterEvent.iter o true) ++
        IterEvent.interrupt :: rest) [] =
      RunResult.mk obsSeq true ExitKind.interrupted) ∧
    (runEvents (obsSeq.map (fun o => IterEvent.iter o true) ++
        IterEvent.noOrientation :: rest) [] =
      RunResult.mk obsSeq true ExitKind.fatalNoOrientation) ∧
    (∀ o : Vec, runEvents (obsSeq.map (fun o => IterEvent.iter o true) ++
        IterEvent.iter o false :: rest) [] =
      RunResult.mk (obsSeq ++ [o]) false ExitKind.inferException) := by
  refine ⟨?_, ?_, fun o => ?_⟩ <;> rw [runEvents_ok_iters] <;>
    simp [runEvents]

/-- C4: every observation returned by `get_obs` is exactly the
concatenation, in this order, of the projected-gravity vector (3 entries),
the command vector (3), the scaled joint positions — rest pose subtracted,
scaled, padded with the two zero placeholders, and mapped to policy
order — (15 entries), the scaled joint velocities — scaled, padded with the
two zero placeholders, and mapped to policy order — (15 entries), and the
previous action (15 entries), so its total length is 51 — whatever the
command values are. -/
theorem obs_is_51_concat (cfg : Config)
    (commands dof_pos dof_vel prev_action : Vec) (st : SchedulerState)
    (v : Vec) (hc : commands.length = 3) (hprev : prev_action.length = 15)
    (hobs : (get_obs cfg commands dof_pos dof_vel prev_action st).1 = some v) :
    ∃ q, (get_imu_data st).1 = some q ∧
      v = quat_rotate_inverse q [0, 0, -1] ++ commands ++
        mujoco_to_isaac cfg.permMI cfg.signMI
          (List.zipWith (fun a b => (a - b) * dof_pos_scale) dof_pos
            (cfg.mujoco_init_pos.take 13) ++ [0, 0]) ++
        mujoco_to_isaac cfg.permMI cfg.signMI
          (dof_vel.map (fun a => a * dof_vel_scale) ++ [0, 0]) ++
        prev_action ∧
      (quat_rotate_inverse q [0, 0, -1]).length = 3 ∧
      (mujoco_to_isaac cfg.permMI cfg.signMI
        (List.zipWith (fun a b => (a - b) * dof_pos_scale) dof_pos
          (cfg.mujoco_init_pos.take 13) ++ [0, 0])).length = 15 ∧
      (mujoco_to_isaac cfg.permMI cfg.signMI
        (dof_vel.map (fun a => a * dof_vel_scale) ++ [0, 0])).length = 15 ∧
      v.length = 51 := by
  obtain ⟨q, hq, hv⟩ :=
    get_obs_some_decomp cfg commands dof_pos dof_vel prev_action st v hobs
  exact ⟨q, hq, hv, length_quat_rotate_inverse q [0, 0, -1],
    length_mujoco_to_isaac cfg.permMI cfg.signMI _,
    length_mujoco_to_isaac cfg.permMI cfg.signMI _,
    get_obs_some_length cfg commands dof_pos dof_vel prev_action st v hc
      hprev hobs⟩

/-- Witness for C4 at a concrete configuration, zero commands and zero
telemetry, evaluating `get_obs` on the freshly constructed state. -/
theorem obs_is_51_concat_witness :
    ∃ q, (get_imu_data initState).1 = some q ∧
      ((get_obs cfg0 [0, 0, 0] (List.replicate 13 0) (List.replicate 13 0)
          init_prev_action initState).1).getD [] =
        quat_rotate_inverse q [0, 0, -1] ++ [0, 0, 0] ++
        mujoco_to_isaac cfg0.permMI cfg0.signMI
          (List.zipWith (fun a b => (a - b) * dof_pos_scale)
            (List.replicate 13 0) (cfg0.mujoco_init_pos.take 13) ++ [0, 0]) ++
        mujoco_to_isaac cfg0.permMI cfg0.signMI
          ((List.replicate 13 0).map (fun a => a * dof_vel_scale) ++ [0, 0]) ++
        init_prev_action ∧
      (quat_rotate_inverse q [0, 0, -1]).length = 3 ∧
      (mujoco_to_isaac cfg0.permMI cfg0.signMI
        (List.zipWith (fun a b => (a - b) * dof_pos_scale)
          (List.replicate 13 0) (cfg0.mujoco_init_pos.take 13) ++
            [0, 0])).length = 15 ∧
      (mujoco_to_isaac cfg0.permMI cfg0.signMI
        ((List.replicate 13 0).map (fun a => a * dof_vel_scale) ++
          [0, 0])).length = 15 ∧
      (((get_obs cfg0 [0, 0, 0] (List.replicate 13 0) (List.replicate 13 0)
          init_prev_action initState).1).getD []).length = 51 :=
  obs_is_51_concat cfg0 [0, 0, 0] (List.replicate 13 0)
    (List.replicate 13 0) init_prev_action initState _ (by decide)
    (by decide) rfl

/-- C9: the previous-action buffer is initialized to the zero vector of
length 15 at construction, so the final 15 entries of the very first
observation of a session — assembled with `prev_action` still at its
initial value — are all zero. -/
theorem first_obs_tail_zero (cfg : Config) (commands dof_pos dof_vel : Vec)
    (st : SchedulerState) (v : Vec) (hc : commands.length = 3)
    (hobs : (get_obs cfg commands dof_pos dof_vel init_prev_action st).1 =
      some v) :
    init_prev_action = List.replicate 15 0 ∧ v.length = 51 ∧
    v.drop 36 = List.replicate 15 0 := by
  obtain ⟨q, -, hv⟩ :=
    get_obs_some_decomp cfg commands dof_pos dof_vel init_prev_action st v
      hobs
  refine ⟨rfl,
    get_obs_some_length cfg commands dof_pos dof_vel init_prev_action st v
      hc (by simp [init_prev_action]) hobs, ?_⟩
  rw [hv, drop36_of_parts _ _ _ _ _ (length_quat_rotate_inverse q [0, 0, -1])
    hc (length_mujoco_to_isaac cfg.permMI cfg.signMI _)
    (length_mujoco_to_isaac cfg.permMI cfg.signMI _)]
  rfl

/-- Witness for C9 at a concrete configuration, evaluating the very first
observation of a session. -/
theorem first_obs_tail_zero_witness :
    init_prev_action = List.replicate 15 0 ∧
    (((get_obs cfg0 [0, 0, 0] (List.replicate 13 0) (List.replicate 13 0)
        init_prev_action initState).1).getD []).length = 51 ∧
    (((get_obs cfg0 [0, 0, 0] (List.replicate 13 0) (List.replicate 13 0)
        init_prev_action initState).1).getD []).drop 36 =
      List.replicate 15 0 :=
  first_obs_tail_zero cfg0 [0, 0, 0] (List.replicate 13 0)
    (List.replicate 13 0) initState _ (by decide) rfl

end RLW
